import Mathlib

/-!
Shallow embedding of `pandas_ta/volume/wb_tsv.py` (the Time Segmented Value
indicator) and proofs about it.

A pandas numeric cell is modelled by `EV`: either missing (`nan`), an
infinity with a sign (`inf`), or an exact rational (`num`).  A pandas
`Series` of floats is a `List EV`; the two validated inputs `close` and
`volume` are plain `List ℚ` (ordered numeric sequences).  Machine floats
are modelled by exact rationals; IEEE special values arise only through
division, which is modelled explicitly.

Python scalar arguments (which may be `None`, an `int`, a `float` or a
`str`) are modelled by `PyParam`; operations that can raise return
`Except String`.
-/

inductive EV where
  | nan : EV
  | inf : Bool → EV
  | num : ℚ → EV
deriving DecidableEq

def EV.isNum : EV → Bool
  | .num _ => true
  | _ => false

/-- Pandas/NumPy elementwise `<ise 0` test: `x < 0`; `nan < 0` is false,
`-inf < 0` is true. -/
def evLt0 : EV → Bool
  | .nan => false
  | .inf b => !b
  | .num q => decide (q < 0)

def evNeg : EV → EV
  | .nan => .nan
  | .inf b => .inf (!b)
  | .num q => .num (-q)

def evAdd : EV → EV → EV
  | .nan, _ => .nan
  | _, .nan => .nan
  | .inf a, .inf b => if a = b then .inf a else .nan
  | .inf a, .num _ => .inf a
  | .num _, .inf b => .inf b
  | .num a, .num b => .num (a + b)

def evMul : EV → EV → EV
  | .nan, _ => .nan
  | _, .nan => .nan
  | .inf a, .inf b => .inf (a = b)
  | .inf a, .num q => if q = 0 then .nan else .inf (a = decide (0 < q))
  | .num q, .inf b => if q = 0 then .nan else .inf (b = decide (0 < q))
  | .num a, .num b => .num (a * b)

/-- IEEE-style division as NumPy performs it elementwise: division by zero
yields a signed infinity (or `nan` for `0/0`), `nan` propagates. -/
def evDiv : EV → EV → EV
  | .nan, _ => .nan
  | _, .nan => .nan
  | .inf _, .inf _ => .nan
  | .inf a, .num q => if q < 0 then .inf (!a) else .inf a
  | .num _, .inf _ => .num 0
  | .num a, .num b =>
      if b = 0 then (if a = 0 then .nan else .inf (decide (0 < a)))
      else .num (a / b)

def EV.isNanOrInf : EV → Bool
  | .nan => true
  | .inf _ => true
  | .num _ => false

/-- Sum of a list of cells, `nan` propagating. -/
def evSum (l : List EV) : EV := l.foldr evAdd (.num 0)

/-- Cell of a series at an index; out of range reads give `nan`
(pandas surfaces missing index labels as `NaN`). -/
def getEV (xs : List EV) (i : ℕ) : EV := (xs[i]?).getD EV.nan

/-- Element of a validated numeric input series at an index (only ever used
at in-range indices). -/
def getQ (xs : List ℚ) (i : ℕ) : ℚ := (xs[i]?).getD 0

/-- A series of length `n` whose cell at `i` is `f i`; every vectorized
stage of the pipeline is written through this combinator. -/
def buildSeries (n : ℕ) (f : ℕ → EV) : List EV := (List.range n).map f

/-- A Python scalar argument: `None`, an `int`, a `float`, or a `str`. -/
inductive PyParam where
  | none : PyParam
  | int : ℤ → PyParam
  | float : ℚ → PyParam
  | str : String → PyParam
deriving DecidableEq

/-- Python truthiness of a scalar: `None`, `0`, `0.0` and the empty string
are falsy. -/
def pyTruthy : PyParam → Bool
  | .none => false
  | .int n => decide (n ≠ 0)
  | .float q => decide (q ≠ 0)
  | .str s => decide (s ≠ "")

def typeErrMsg : String := "TypeError: comparison not supported between str and int"

def valueErrMsg : String := "ValueError: invalid literal for int"

def intShiftErrMsg : String := "AttributeError: int object has no attribute shift"

/-- The Python comparison `x > 0`: numeric for `int`/`float`, a `TypeError`
for `str` and `None`. -/
def pyGtZero : PyParam → Except String Bool
  | .none => .error typeErrMsg
  | .int n => .ok (decide (0 < n))
  | .float q => .ok (decide (0 < q))
  | .str _ => .error typeErrMsg

/-- Truncation toward zero, the behaviour of Python `int()` on a float. -/
def ratTrunc (q : ℚ) : ℤ := if q < 0 then -(Int.floor (-q)) else Int.floor q

/-- Python `int(x)`: identity on ints, truncation on floats. -/
def pyToInt : PyParam → Except String ℤ
  | .none => .error typeErrMsg
  | .int n => .ok n
  | .float q => .ok (ratTrunc q)
  | .str _ => .error valueErrMsg

/-- The source expression `int(p) if p and p > 0 else default`
(used for both `length` and `signal`). -/
def paramNorm (dflt : ℤ) (p : PyParam) : Except String ℤ :=
  if pyTruthy p then
    match pyGtZero p with
    | .ok true => pyToInt p
    | .ok false => .ok dflt
    | .error e => .error e
  else .ok dflt

def lengthNorm : PyParam → Except String ℤ := paramNorm 18

def signalNorm : PyParam → Except String ℤ := paramNorm 10

/-- The source expression `mamode if isinstance(mamode, str) else "sma"`. -/
def mamodeNorm : PyParam → String
  | .str s => s
  | _ => "sma"

/-- Modelled from the spec: the external collaborator `get_drift`
(§4.1/§6), absent from `src/`: coerces the drift argument to a positive
integer, defaulting to 1 when absent or invalid. -/
def get_drift : Option ℤ → ℤ
  | Option.none => 1
  | Option.some z => if 0 < z then z else 1

/-- Modelled from the spec: the external collaborator `get_offset`
(§4.1/§6), absent from `src/`: coerces the offset argument to an integer,
defaulting to 0 when absent or invalid. -/
def get_offset : Option ℤ → ℤ
  | Option.none => 0
  | Option.some z => z

/-- Modelled from the spec: the external collaborator `zero` (§4.1 step 3,
§6), absent from `src/`: values within a small epsilon of zero are snapped
to exactly zero.  The epsilon is modelled as the double-precision machine
epsilon `2 ^ (-52)`. -/
def zeroEps : ℚ := 1 / 2 ^ 52

/-- Modelled from the spec: the `zero` collaborator itself, elementwise on
one value. -/
def zero (q : ℚ) : ℚ := if |q| < zeroEps then 0 else q

/-- Modelled from the spec: the external collaborator
`signed_series(series, lag)` (§4.1 step 1, §6), absent from `src/`:
`sign(i) = +1` if `close(i) > close(i-1)`, `-1` if `close(i) < close(i-1)`,
and the configured neutral value when equal or undefined (index 0 at
lag 1). -/
def signedSeries (close : List ℚ) (initial : ℚ) : List EV :=
  buildSeries close.length (fun i =>
    if 0 < i ∧ getQ close (i - 1) < getQ close i then .num 1
    else if 0 < i ∧ getQ close i < getQ close (i - 1) then .num (-1)
    else .num initial)

/-- Source line `signed_volume = volume * signed_series(close, 1)`:
elementwise product of `volume` with the sign series over the shared
index. -/
def signedVolume (close volume : List ℚ) : List EV :=
  buildSeries volume.length (fun i =>
    evMul (.num (getQ volume i)) (getEV (signedSeries close 1) i))

/-- Source line `signed_volume[signed_volume < 0] = -signed_volume`:
wherever the cell is negative it is replaced by the aligned negation. -/
def absCorrect (xs : List EV) : List EV :=
  buildSeries xs.length (fun i =>
    if evLt0 (getEV xs i) then evNeg (getEV xs i) else getEV xs i)

/-- `close.diff(d)`: lagged difference, `nan` for the first `d`
positions. -/
def diffSeries (d : ℕ) (xs : List ℚ) : List EV :=
  buildSeries xs.length (fun i =>
    if d ≤ i then .num (getQ xs i - getQ xs (i - d)) else .nan)

/-- Source line `cvd = signed_volume * close.diff(drift)`.  Note that the
preceding source line `signed_volume.apply(zero)` discards its result, so
no snap-to-zero enters here. -/
def cvdSeries (close volume : List ℚ) (d : ℕ) : List EV :=
  buildSeries (absCorrect (signedVolume close volume)).length (fun i =>
    evMul (getEV (absCorrect (signedVolume close volume)) i)
      (getEV (diffSeries d close) i))

/-- The trailing window of width `w` ending at index `i`. -/
def windowAt (xs : List EV) (w i : ℕ) : List EV := (xs.drop (i + 1 - w)).take w

/-- `xs.rolling(w).sum()` with the pandas default `min_periods = w`: the
cell is the window sum when the full window is available and entirely
numeric, else `nan`. -/
def rollingSum (w : ℕ) (xs : List EV) : List EV :=
  buildSeries xs.length (fun i =>
    if w ≤ i + 1 ∧ (windowAt xs w i).all EV.isNum then evSum (windowAt xs w i)
    else .nan)

/-- `xs.rolling(w).mean()` under the same window discipline. -/
def rollingMean (w : ℕ) (xs : List EV) : List EV :=
  buildSeries xs.length (fun i =>
    if w ≤ i + 1 ∧ (windowAt xs w i).all EV.isNum then
      evDiv (evSum (windowAt xs w i)) (.num (w : ℚ))
    else .nan)

/-- Modelled from the spec: the external MovingAverage collaborator
`ma(mode, series, length)` (§4.1 step 6, §6), absent from `src/`.  The
spec treats it as a black box; no claim depends on any mode other than the
default simple mode, so every mode is modelled as the simple rolling
mean. -/
def ma (_mode : String) (xs : List EV) (w : ℕ) : List EV :=
  rollingMean w xs

/-- Source line `tsv = cvd.rolling(length).sum()`. -/
def tsvSeries (close volume : List ℚ) (len d : ℕ) : List EV :=
  rollingSum len (cvdSeries close volume d)

/-- Source line `signal_ = ma(mamode, tsv, length=signal)`. -/
def signalSeries (md : String) (close volume : List ℚ) (len sg d : ℕ) : List EV :=
  ma md (tsvSeries close volume len d) sg

/-- Elementwise series division over the shared index. -/
def seriesDiv (xs ys : List EV) : List EV :=
  buildSeries xs.length (fun i => evDiv (getEV xs i) (getEV ys i))

/-- Source line `ratio = tsv / signal_`. -/
def ratioSeries (md : String) (close volume : List ℚ) (len sg d : ℕ) : List EV :=
  seriesDiv (tsvSeries close volume len d) (signalSeries md close volume len sg d)

/-- `xs.fillna(v)`: every `nan` cell replaced by the literal value
(infinities are not null and are kept). -/
def fillnaVal (v : ℚ) (xs : List EV) : List EV :=
  buildSeries xs.length (fun i =>
    if getEV xs i = .nan then .num v else getEV xs i)

/-- Forward fill: each `nan` cell takes the last preceding non-`nan`
value, leading `nan`s are kept. -/
def ffillAux : Option EV → List EV → List EV
  | _, [] => []
  | last, x :: rest =>
    if x = .nan then
      match last with
      | Option.some v => v :: ffillAux (Option.some v) rest
      | Option.none => .nan :: ffillAux Option.none rest
    else x :: ffillAux (Option.some x) rest

def ffill (xs : List EV) : List EV := ffillAux Option.none xs

def bfill (xs : List EV) : List EV := (ffillAux Option.none xs.reverse).reverse

/-- `xs.fillna(method=m)`: the spec closes the method set to forward- and
backward-fill; any other identifier is modelled as forward fill. -/
def fillMethod (m : String) (xs : List EV) : List EV :=
  if m = "bfill" then bfill xs else ffill xs

/-- The two kwargs-driven fill blocks of the source, in order: the
`fillna` value pass, then the `fill_method` pass. -/
def fillValuePass (fillna : Option ℚ) (xs : List EV) : List EV :=
  match fillna with
  | Option.some v => fillnaVal v xs
  | Option.none => xs

def fillMethodPass (fill_method : Option String) (xs : List EV) : List EV :=
  match fill_method with
  | Option.some m => fillMethod m xs
  | Option.none => xs

def fillPass (fillna : Option ℚ) (fill_method : Option String) (xs : List EV) : List EV :=
  fillMethodPass fill_method (fillValuePass fillna xs)

structure TSVResult where
  tsv : List EV
  signal : List EV
  ratio : List EV
  tsvName : String
  signalName : String
  ratioName : String
  category : String
deriving DecidableEq

/-- The whole of `wb_tsv`, in source order: parameter normalization (which
can raise on string `length`/`signal`), the pipeline, the offset branch
(whose `signal.shift(offset)` is an attribute access on the normalized
`int`, hence raises whenever it is reached), the two fill passes, and
naming.  There is no input-series validation step in the source: the
`verify_series` import is unused. -/
def wb_tsv (close volume : List ℚ) (length signal mamode : PyParam)
    (drift offset : Option ℤ) (fillna : Option ℚ) (fill_method : Option String) :
    Except String TSVResult :=
  match lengthNorm length, signalNorm signal with
  | .error e, _ => .error e
  | .ok _, .error e => .error e
  | .ok L, .ok S =>
    let md := mamodeNorm mamode
    let d := (get_drift drift).toNat
    let off := get_offset offset
    let tsv0 := tsvSeries close volume L.toNat d
    let sig0 := signalSeries md close volume L.toNat S.toNat d
    let rat0 := ratioSeries md close volume L.toNat S.toNat d
    if off ≠ 0 then .error intShiftErrMsg
    else
      .ok { tsv := fillPass fillna fill_method tsv0
            signal := fillPass fillna fill_method sig0
            ratio := fillPass fillna fill_method rat0
            tsvName := "TSV_" ++ toString L ++ "_" ++ toString S
            signalName := "TSVs_" ++ toString L ++ "_" ++ toString S
            ratioName := "TSVr_" ++ toString L ++ "_" ++ toString S
            category := "volume" }

/-! ### Basic lemmas about the series combinators -/

theorem length_buildSeries (n : ℕ) (f : ℕ → EV) : (buildSeries n f).length = n := by
  simp [buildSeries]

theorem buildSeries_getElem? (n : ℕ) (f : ℕ → EV) (i : ℕ) :
    (buildSeries n f)[i]? = if i < n then Option.some (f i) else Option.none := by
  unfold buildSeries
  rw [List.getElem?_map]
  by_cases h : i < n
  · rw [List.getElem?_range h]
    simp [h]
  · rw [List.getElem?_eq_none (by rw [List.length_range]; exact Nat.le_of_not_lt h)]
    simp [h]

theorem getEV_buildSeries (n : ℕ) (f : ℕ → EV) (i : ℕ) (h : i < n) :
    getEV (buildSeries n f) i = f i := by
  unfold getEV
  rw [buildSeries_getElem?]
  simp [h]

theorem EV.isNum_iff {v : EV} : v.isNum = true ↔ ∃ q, v = .num q := by
  cases v <;> simp [EV.isNum]

theorem evSum_isNum {l : List EV} (h : l.all EV.isNum = true) : (evSum l).isNum = true := by
  induction l with
  | nil => rfl
  | cons x xs ih =>
    rw [List.all_cons, Bool.and_eq_true] at h
    obtain ⟨q, hq⟩ := EV.isNum_iff.mp h.1
    obtain ⟨r, hr⟩ := EV.isNum_iff.mp (ih h.2)
    show (evAdd x (evSum xs)).isNum = true
    rw [hq, hr]
    rfl

theorem isNum_ne_nan {v : EV} (h : v.isNum = true) : v ≠ EV.nan := by
  cases v <;> simp_all [EV.isNum]

theorem windowAt_all_iff (xs : List EV) (p : EV → Bool) (w i : ℕ)
    (h1 : w ≤ i + 1) (h2 : i < xs.length) :
    ((windowAt xs w i).all p = true) ↔
      ∀ j, i + 1 - w ≤ j → j < i + 1 → p (getEV xs j) = true := by
  rw [List.all_eq_true]
  constructor
  · intro H j hj1 hj2
    have hk : j - (i + 1 - w) < w := by omega
    have hmem : getEV xs j ∈ windowAt xs w i := by
      rw [List.mem_iff_getElem?]
      refine ⟨j - (i + 1 - w), ?_⟩
      unfold windowAt
      rw [List.getElem?_take]
      simp only [hk, if_pos]
      rw [List.getElem?_drop]
      have hidx : i + 1 - w + (j - (i + 1 - w)) = j := by omega
      rw [hidx]
      rw [List.getElem?_eq_getElem (by omega)]
      unfold getEV
      rw [List.getElem?_eq_getElem (by omega)]
      rfl
    exact H _ hmem
  · intro H x hx
    rw [List.mem_iff_getElem?] at hx
    obtain ⟨k, hk⟩ := hx
    unfold windowAt at hk
    rw [List.getElem?_take] at hk
    by_cases hkw : k < w
    · simp only [hkw, if_pos] at hk
      rw [List.getElem?_drop] at hk
      have hx' : getEV xs (i + 1 - w + k) = x := by
        unfold getEV
        rw [hk]
        rfl
      have := H (i + 1 - w + k) (by omega) (by omega)
      rwa [hx'] at this
    · simp [hkw] at hk

/-! ### Lengths of the pipeline stages -/

theorem length_signedVolume (close volume : List ℚ) :
    (signedVolume close volume).length = volume.length :=
  length_buildSeries _ _

theorem length_absCorrect (xs : List EV) : (absCorrect xs).length = xs.length :=
  length_buildSeries _ _

theorem length_cvdSeries (close volume : List ℚ) (d : ℕ) :
    (cvdSeries close volume d).length = volume.length := by
  unfold cvdSeries
  rw [length_buildSeries, length_absCorrect, length_signedVolume]

theorem length_rollingSum (w : ℕ) (xs : List EV) :
    (rollingSum w xs).length = xs.length :=
  length_buildSeries _ _

theorem length_rollingMean (w : ℕ) (xs : List EV) :
    (rollingMean w xs).length = xs.length :=
  length_buildSeries _ _

theorem length_tsvSeries (close volume : List ℚ) (len d : ℕ) :
    (tsvSeries close volume len d).length = volume.length := by
  unfold tsvSeries
  rw [length_rollingSum, length_cvdSeries]

/-! ### Cellwise characterization of the pipeline stages -/

theorem signedSeries_isNum (close : List ℚ) (init : ℚ) (i : ℕ) (hi : i < close.length) :
    ∃ q, getEV (signedSeries close init) i = .num q := by
  unfold signedSeries
  rw [getEV_buildSeries _ _ _ hi]
  split
  · exact ⟨1, rfl⟩
  · split
    · exact ⟨-1, rfl⟩
    · exact ⟨init, rfl⟩

theorem signedVolume_isNum (close volume : List ℚ) (i : ℕ)
    (hlen : close.length = volume.length) (hi : i < volume.length) :
    ∃ q, getEV (signedVolume close volume) i = .num q := by
  unfold signedVolume
  rw [getEV_buildSeries _ _ _ hi]
  obtain ⟨q, hq⟩ := signedSeries_isNum close 1 i (by omega)
  rw [hq]
  exact ⟨getQ volume i * q, rfl⟩

theorem absCorrect_getEV (xs : List EV) (i : ℕ) (hi : i < xs.length) :
    getEV (absCorrect xs) i =
      if evLt0 (getEV xs i) then evNeg (getEV xs i) else getEV xs i := by
  unfold absCorrect
  rw [getEV_buildSeries _ _ _ hi]

theorem absCorrect_isNum (xs : List EV) (i : ℕ) (hi : i < xs.length)
    (h : ∃ q, getEV xs i = .num q) : ∃ q, getEV (absCorrect xs) i = .num q := by
  obtain ⟨q, hq⟩ := h
  rw [absCorrect_getEV xs i hi, hq]
  by_cases h0 : q < 0
  · exact ⟨-q, by simp [evLt0, evNeg, h0]⟩
  · exact ⟨q, by simp [evLt0, h0]⟩

theorem diffSeries_getEV (d : ℕ) (xs : List ℚ) (i : ℕ) (hi : i < xs.length) :
    getEV (diffSeries d xs) i =
      if d ≤ i then .num (getQ xs i - getQ xs (i - d)) else .nan := by
  unfold diffSeries
  rw [getEV_buildSeries _ _ _ hi]

theorem cvd_isNum_iff (close volume : List ℚ) (d i : ℕ)
    (hlen : close.length = volume.length) (hi : i < volume.length) :
    (EV.isNum (getEV (cvdSeries close volume d) i) = true) ↔ d ≤ i := by
  have hlen2 : i < (absCorrect (signedVolume close volume)).length := by
    rw [length_absCorrect, length_signedVolume]; exact hi
  unfold cvdSeries
  rw [getEV_buildSeries _ _ _ hlen2]
  obtain ⟨q, hq⟩ := absCorrect_isNum (signedVolume close volume) i
    (by rw [length_signedVolume]; exact hi)
    (signedVolume_isNum close volume i hlen hi)
  rw [hq, diffSeries_getEV d close i (by omega)]
  by_cases hd : d ≤ i
  · simp [hd, evMul, EV.isNum]
  · simp [hd, evMul, EV.isNum]

theorem rollingSum_getEV (w : ℕ) (xs : List EV) (i : ℕ) (hi : i < xs.length) :
    getEV (rollingSum w xs) i =
      if w ≤ i + 1 ∧ (windowAt xs w i).all EV.isNum then evSum (windowAt xs w i)
      else .nan := by
  unfold rollingSum
  rw [getEV_buildSeries _ _ _ hi]

/-- Core warm-up law for the rolling sum of `cvd`: within range, the `tsv`
cell is null exactly when `i + 1 < length + drift`, numeric exactly when
`length + drift ≤ i + 1`. -/
theorem tsv_warmup_core (close volume : List ℚ) (L d : ℕ) (hL : 1 ≤ L)
    (hlen : close.length = volume.length) (i : ℕ) (hi : i < volume.length) :
    (getEV (tsvSeries close volume L d) i = EV.nan ↔ i + 1 < L + d)
    ∧ (EV.isNum (getEV (tsvSeries close volume L d) i) = true ↔ L + d ≤ i + 1) := by
  have hcvd : (cvdSeries close volume d).length = volume.length :=
    length_cvdSeries close volume d
  unfold tsvSeries
  rw [rollingSum_getEV L (cvdSeries close volume d) i (by omega)]
  by_cases hw : L ≤ i + 1
  · have hall : ((windowAt (cvdSeries close volume d) L i).all EV.isNum = true) ↔
        L + d ≤ i + 1 := by
      rw [windowAt_all_iff (cvdSeries close volume d) EV.isNum L i hw (by omega)]
      constructor
      · intro H
        have := H (i + 1 - L) (by omega) (by omega)
        rw [cvd_isNum_iff close volume d (i + 1 - L) hlen (by omega)] at this
        omega
      · intro H j hj1 hj2
        rw [cvd_isNum_iff close volume d j hlen (by omega)]
        omega
    by_cases hnum : L + d ≤ i + 1
    · have hallT := hall.mpr hnum
      rw [if_pos ⟨hw, hallT⟩]
      have hsum := evSum_isNum hallT
      constructor
      · constructor
        · intro hcontra
          exact absurd hcontra (isNum_ne_nan hsum)
        · omega
      · constructor
        · intro _
          exact hnum
        · intro _
          exact hsum
    · have hallF : ¬ ((windowAt (cvdSeries close volume d) L i).all EV.isNum = true) := by
        intro hcontra
        exact hnum (hall.mp hcontra)
      rw [if_neg (by intro hcontra; exact hallF hcontra.2)]
      constructor
      · constructor
        · intro _
          omega
        · intro _
          rfl
      · constructor
        · intro hcontra
          simp [EV.isNum] at hcontra
        · omega
  · rw [if_neg (by intro hcontra; exact hw hcontra.1)]
    constructor
    · constructor
      · intro _
        omega
      · intro _
        rfl
    · constructor
      · intro hcontra
        simp [EV.isNum] at hcontra
      · omega

/-! ### Fill lemmas -/

theorem fillnaVal_getElem? (v : ℚ) (xs : List EV) (i : ℕ) :
    (fillnaVal v xs)[i]? = (xs[i]?).map (fun e => if e = EV.nan then EV.num v else e) := by
  unfold fillnaVal
  rw [buildSeries_getElem?]
  by_cases h : i < xs.length
  · rw [if_pos h]
    simp [getEV, List.getElem?_eq_getElem h]
  · rw [if_neg h, List.getElem?_eq_none (Nat.le_of_not_lt h)]
    rfl

theorem fillnaVal_ne_nan (v : ℚ) (xs : List EV) (x : EV) (hx : x ∈ fillnaVal v xs) :
    x ≠ EV.nan := by
  rw [List.mem_iff_getElem?] at hx
  obtain ⟨i, hi⟩ := hx
  rw [fillnaVal_getElem?] at hi
  cases hxs : xs[i]? with
  | none =>
    rw [hxs] at hi
    exact absurd hi (by simp)
  | some e =>
    rw [hxs] at hi
    simp only [Option.map_some', Option.some.injEq] at hi
    rw [← hi]
    by_cases he : e = EV.nan
    · rw [if_pos he]
      intro hcontra
      cases hcontra
    · rw [if_neg he]
      exact he

theorem fillnaVal_all_ne_nan (v : ℚ) (xs : List EV) :
    (fillnaVal v xs).all (fun e => decide (e ≠ EV.nan)) = true := by
  rw [List.all_eq_true]
  intro x hx
  simpa using fillnaVal_ne_nan v xs x hx

theorem ffillAux_of_ne_nan (xs : List EV) (h : ∀ x ∈ xs, x ≠ EV.nan) (last : Option EV) :
    ffillAux last xs = xs := by
  induction xs generalizing last with
  | nil => rfl
  | cons x rest ih =>
    have hx : x ≠ EV.nan := h x (List.mem_cons_self x rest)
    show (if x = EV.nan then _ else x :: ffillAux (Option.some x) rest) = x :: rest
    rw [if_neg hx, ih (fun y hy => h y (List.mem_cons_of_mem x hy)) _]

theorem bfill_of_ne_nan (xs : List EV) (h : ∀ x ∈ xs, x ≠ EV.nan) : bfill xs = xs := by
  unfold bfill
  rw [ffillAux_of_ne_nan xs.reverse (fun y hy => h y (List.mem_reverse.mp hy)) _,
    List.reverse_reverse]

theorem fillMethod_of_ne_nan (m : String) (xs : List EV) (h : ∀ x ∈ xs, x ≠ EV.nan) :
    fillMethod m xs = xs := by
  unfold fillMethod
  by_cases hm : m = "bfill"
  · rw [if_pos hm]
    exact bfill_of_ne_nan xs h
  · rw [if_neg hm]
    exact ffillAux_of_ne_nan xs h _

theorem fillPass_some_eq (v : ℚ) (fm : Option String) (xs : List EV) :
    fillPass (Option.some v) fm xs = fillnaVal v xs := by
  unfold fillPass fillValuePass fillMethodPass
  cases fm with
  | none => rfl
  | some m => exact fillMethod_of_ne_nan m _ (fillnaVal_ne_nan v xs)

/-! ### Closed forms of `wb_tsv` under the possible control paths -/

theorem wb_tsv_eq_errorL (close volume : List ℚ) (l s mamode : PyParam)
    (drift offset : Option ℤ) (fillna : Option ℚ) (fm : Option String) (e : String)
    (hL : lengthNorm l = .error e) :
    wb_tsv close volume l s mamode drift offset fillna fm = .error e := by
  unfold wb_tsv
  rw [hL]

theorem wb_tsv_eq_errorS (close volume : List ℚ) (l s mamode : PyParam)
    (drift offset : Option ℤ) (fillna : Option ℚ) (fm : Option String) (L : ℤ) (e : String)
    (hL : lengthNorm l = .ok L) (hS : signalNorm s = .error e) :
    wb_tsv close volume l s mamode drift offset fillna fm = .error e := by
  unfold wb_tsv
  rw [hL, hS]

theorem wb_tsv_eq_error (close volume : List ℚ) (l s mamode : PyParam)
    (drift offset : Option ℤ) (fillna : Option ℚ) (fm : Option String) (L S : ℤ)
    (hL : lengthNorm l = .ok L) (hS : signalNorm s = .ok S)
    (hoff : get_offset offset ≠ 0) :
    wb_tsv close volume l s mamode drift offset fillna fm = .error intShiftErrMsg := by
  unfold wb_tsv
  rw [hL, hS]
  simp [hoff]

theorem wb_tsv_eq_ok (close volume : List ℚ) (l s mamode : PyParam)
    (drift offset : Option ℤ) (fillna : Option ℚ) (fm : Option String) (L S : ℤ)
    (hL : lengthNorm l = .ok L) (hS : signalNorm s = .ok S)
    (hoff : get_offset offset = 0) :
    wb_tsv close volume l s mamode drift offset fillna fm =
      .ok { tsv := fillPass fillna fm
              (tsvSeries close volume L.toNat (get_drift drift).toNat)
            signal := fillPass fillna fm
              (signalSeries (mamodeNorm mamode) close volume L.toNat S.toNat
                (get_drift drift).toNat)
            ratio := fillPass fillna fm
              (ratioSeries (mamodeNorm mamode) close volume L.toNat S.toNat
                (get_drift drift).toNat)
            tsvName := "TSV_" ++ toString L ++ "_" ++ toString S
            signalName := "TSVs_" ++ toString L ++ "_" ++ toString S
            ratioName := "TSVr_" ++ toString L ++ "_" ++ toString S
            category := "volume" } := by
  unfold wb_tsv
  rw [hL, hS]
  simp [hoff]

/-! ### Small case lemmas for the parameter normalization -/

theorem evLt0_evNeg {v : EV} (h : evLt0 v = true) : evLt0 (evNeg v) = false := by
  cases v with
  | nan => simp [evLt0] at h
  | inf b => cases b <;> simp_all [evLt0, evNeg]
  | num q =>
    simp only [evLt0, decide_eq_true_eq] at h
    simp only [evNeg, evLt0, decide_eq_false_iff_not, not_lt]
    linarith

theorem paramNorm_none (dflt : ℤ) : paramNorm dflt PyParam.none = .ok dflt := rfl

theorem paramNorm_int (dflt n : ℤ) :
    paramNorm dflt (PyParam.int n) = .ok (if 0 < n then n else dflt) := by
  unfold paramNorm pyTruthy pyGtZero pyToInt
  by_cases h0 : n = 0
  · subst h0
    simp
  · by_cases hp : 0 < n <;> simp [h0, hp]

theorem paramNorm_float (dflt : ℤ) (q : ℚ) :
    paramNorm dflt (PyParam.float q) = .ok (if 0 < q then ratTrunc q else dflt) := by
  unfold paramNorm pyTruthy pyGtZero pyToInt
  by_cases h0 : q = 0
  · subst h0
    simp
  · by_cases hp : 0 < q <;> simp [h0, hp]

theorem paramNorm_str (dflt : ℤ) (t : String) :
    paramNorm dflt (PyParam.str t) =
      if t = "" then .ok dflt else .error typeErrMsg := by
  unfold paramNorm pyTruthy pyGtZero
  by_cases h0 : t = "" <;> simp [h0]

/-! ### Claim theorems -/

/-- **C5** (confirmed).  After the absolute-value correction line
`signed_volume[signed_volume < 0] = -signed_volume`, every cell of
`signed_volume` is non-negative (no cell satisfies the elementwise
`< 0` test), for every pair of input series: the sign information from
step 1 never reaches the `cvd` product, which is built from this
corrected series. -/
theorem wb_tsv_signed_volume_nonneg (close volume : List ℚ) :
    (absCorrect (signedVolume close volume)).all (fun e => !(evLt0 e)) = true := by
  rw [List.all_eq_true]
  intro x hx
  rw [List.mem_iff_getElem?] at hx
  obtain ⟨i, hi⟩ := hx
  unfold absCorrect at hi
  rw [buildSeries_getElem?] at hi
  by_cases h : i < (signedVolume close volume).length
  · rw [if_pos h] at hi
    have hx' := Option.some.inj hi
    by_cases hlt : evLt0 (getEV (signedVolume close volume) i) = true
    · rw [if_pos hlt] at hx'
      rw [← hx']
      simp [evLt0_evNeg hlt]
    · rw [if_neg hlt] at hx'
      rw [← hx']
      simp [Bool.not_eq_true] at hlt
      simp [hlt]
  · rw [if_neg h] at hi
    exact absurd hi (by simp)

/-- **C3** (code bug).  The source line `signed_volume.apply(zero)`
discards its result, so the snap-to-zero that the spec describes never
happens: at `close = [1, 2]`, `volume = [0, 2 ^ (-53)]`, the corrected
`signed_volume` cell at index 1 is `2 ^ (-53)` — within epsilon of zero,
so `zero` would snap it to `0` — yet the value entering the `cvd` product
at index 1 is still `2 ^ (-53)`, not `0`. -/
theorem wb_tsv_zero_snap_discarded :
    getEV (absCorrect (signedVolume [1, 2] [0, 1 / 2 ^ 53])) 1 = EV.num (1 / 2 ^ 53)
    ∧ |(1 : ℚ) / 2 ^ 53| < zeroEps
    ∧ zero ((1 : ℚ) / 2 ^ 53) = 0
    ∧ getEV (cvdSeries [1, 2] [0, 1 / 2 ^ 53] 1) 1 = EV.num (1 / 2 ^ 53) := by
  have habs : |(1 : ℚ) / 2 ^ 53| = (1 : ℚ) / 2 ^ 53 := abs_of_pos (by norm_num)
  have heps : |(1 : ℚ) / 2 ^ 53| < zeroEps := by
    rw [habs]
    norm_num [zeroEps]
  refine ⟨?_, heps, ?_, ?_⟩
  · norm_num [absCorrect, signedVolume, signedSeries, buildSeries, evMul, evLt0, evNeg,
      getEV, getQ, List.range_succ]
  · unfold zero
    rw [if_pos heps]
  · norm_num [cvdSeries, absCorrect, signedVolume, signedSeries, diffSeries, buildSeries,
      evMul, evLt0, evNeg, getEV, getQ, List.range_succ]

/-- **C7** (corrected, counterexample).  The claim says wrong-typed
parameters are silently coerced and an unrecognized `mamode` falls back to
`"sma"`; in the source a non-empty string `length` raises a `TypeError`
inside `length > 0`, and `mamode` keeps any string whatsoever. -/
theorem wb_tsv_param_norm_cex :
    (lengthNorm (PyParam.str "x")).isOk = false
    ∧ mamodeNorm (PyParam.str "zzz") = "zzz" :=
  ⟨rfl, rfl⟩

/-- **C7** (amended).  Parameter normalization never raises for absent,
integer or float arguments: `length` becomes the given integer when
positive, the truncation of the given float when positive, and 18
otherwise; `signal` likewise with default 10; a non-empty string
`length`/`signal` raises a type error; `mamode` becomes the given value
whenever it is any string (recognized or not) and `"sma"` otherwise. -/
theorem wb_tsv_param_norm :
    (lengthNorm PyParam.none = .ok 18)
    ∧ (∀ n : ℤ, lengthNorm (PyParam.int n) = .ok (if 0 < n then n else 18))
    ∧ (∀ q : ℚ, lengthNorm (PyParam.float q) = .ok (if 0 < q then ratTrunc q else 18))
    ∧ (∀ t : String, lengthNorm (PyParam.str t) =
        if t = "" then .ok 18 else .error typeErrMsg)
    ∧ (signalNorm PyParam.none = .ok 10)
    ∧ (∀ n : ℤ, signalNorm (PyParam.int n) = .ok (if 0 < n then n else 10))
    ∧ (∀ q : ℚ, signalNorm (PyParam.float q) = .ok (if 0 < q then ratTrunc q else 10))
    ∧ (∀ t : String, signalNorm (PyParam.str t) =
        if t = "" then .ok 10 else .error typeErrMsg)
    ∧ (mamodeNorm PyParam.none = "sma")
    ∧ (∀ n : ℤ, mamodeNorm (PyParam.int n) = "sma")
    ∧ (∀ q : ℚ, mamodeNorm (PyParam.float q) = "sma")
    ∧ (∀ t : String, mamodeNorm (PyParam.str t) = t) :=
  ⟨rfl, fun n => paramNorm_int 18 n, fun q => paramNorm_float 18 q,
    fun t => paramNorm_str 18 t, rfl, fun n => paramNorm_int 10 n,
    fun q => paramNorm_float 10 q, fun t => paramNorm_str 10 t,
    rfl, fun _ => rfl, fun _ => rfl, fun _ => rfl⟩

/-- **C1** (corrected, counterexample).  The claim says an invalid (null,
empty, or non-numeric) input series makes `wb_tsv` fail fast through
`verify_series` with no result returned; in the source `verify_series` is
imported but never called, and an empty pair of inputs flows straight
through the pipeline and yields a (trivially empty) result frame. -/
theorem wb_tsv_no_validation_cex :
    wb_tsv [] [] PyParam.none PyParam.none PyParam.none Option.none Option.none
        Option.none Option.none =
      .ok { tsv := [], signal := [], ratio := [], tsvName := "TSV_18_10",
            signalName := "TSVs_18_10", ratioName := "TSVr_18_10",
            category := "volume" } := by
  rfl

/-- **C1** (amended).  `wb_tsv` applies no input-series validation at all:
whenever the scalar parameters normalize successfully and the normalized
offset is 0, the call returns a result for every pair of input lists —
empty included — and no `verify_series` error is ever propagated. -/
theorem wb_tsv_no_validation (close volume : List ℚ) (l s mamode : PyParam)
    (drift offset : Option ℤ) (fillna : Option ℚ) (fm : Option String) (L S : ℤ)
    (hL : lengthNorm l = .ok L) (hS : signalNorm s = .ok S)
    (hoff : get_offset offset = 0) :
    (wb_tsv close volume l s mamode drift offset fillna fm).isOk = true := by
  rw [wb_tsv_eq_ok close volume l s mamode drift offset fillna fm L S hL hS hoff]
  rfl

theorem wb_tsv_no_validation_witness :
    (wb_tsv [] [] PyParam.none PyParam.none PyParam.none Option.none Option.none
        Option.none Option.none).isOk = true :=
  wb_tsv_no_validation [] [] PyParam.none PyParam.none PyParam.none Option.none
    Option.none Option.none Option.none 18 10 rfl rfl rfl

/-- **C6** (confirmed).  Whenever the normalized offset is nonzero, the
offset branch evaluates `signal.shift(offset)` on the normalized integer
`signal` parameter — an attribute an `int` does not have — so the call
raises and returns no frame; the branch completes only for offset 0. -/
theorem wb_tsv_nonzero_offset_raises (close volume : List ℚ) (l s mamode : PyParam)
    (drift offset : Option ℤ) (fillna : Option ℚ) (fm : Option String) (L S : ℤ)
    (hL : lengthNorm l = .ok L) (hS : signalNorm s = .ok S)
    (hoff : get_offset offset ≠ 0) :
    wb_tsv close volume l s mamode drift offset fillna fm = .error intShiftErrMsg :=
  wb_tsv_eq_error close volume l s mamode drift offset fillna fm L S hL hS hoff

theorem wb_tsv_nonzero_offset_raises_witness :
    wb_tsv [1] [1] PyParam.none PyParam.none PyParam.none Option.none (Option.some 2)
        Option.none Option.none = .error intShiftErrMsg :=
  wb_tsv_nonzero_offset_raises [1] [1] PyParam.none PyParam.none PyParam.none
    Option.none (Option.some 2) Option.none Option.none 18 10 rfl rfl (by decide)

/-- **C2** (corrected, counterexample).  The claim says a call with nonzero
normalized offset returns shifted `tsv` and `ratio` sequences; in the
source such a call raises (see C6) and returns nothing at all. -/
theorem wb_tsv_offset_law_cex :
    (wb_tsv [1, 2, 3] [1, 1, 1] PyParam.none PyParam.none PyParam.none Option.none
        (Option.some 1) Option.none Option.none).isOk = false := by
  rfl

/-- **C2** (amended).  For every call whose normalized offset is nonzero,
no output is returned at all: after the `tsv` shift the source shifts the
raw integer `signal` parameter, which has no shift operation, so the call
propagates an error instead of producing shifted sequences. -/
theorem wb_tsv_offset_never_returns (close volume : List ℚ) (l s mamode : PyParam)
    (drift offset : Option ℤ) (fillna : Option ℚ) (fm : Option String) (L S : ℤ)
    (hL : lengthNorm l = .ok L) (hS : signalNorm s = .ok S)
    (hoff : get_offset offset ≠ 0) :
    (wb_tsv close volume l s mamode drift offset fillna fm).isOk = false := by
  rw [wb_tsv_eq_error close volume l s mamode drift offset fillna fm L S hL hS hoff]
  rfl

theorem wb_tsv_offset_never_returns_witness :
    (wb_tsv [1, 2] [1, 1] PyParam.none PyParam.none PyParam.none Option.none
        (Option.some (-3)) Option.none Option.none).isOk = false :=
  wb_tsv_offset_never_returns [1, 2] [1, 1] PyParam.none PyParam.none PyParam.none
    Option.none (Option.some (-3)) Option.none Option.none 18 10 rfl rfl (by decide)

/-- **C4** (corrected, counterexample).  The claim says `tsv(i)` is
non-null for every `i ≥ length - 1`; with `length = 2` and the default
drift 1, `cvd(0)` is already null (the lagged price difference is
undefined at index 0), so the window ending at `i = length - 1 = 1` still
contains a null and `tsv(1)` is null.  The second conjunct checks this
happens on the `tsv` column `wb_tsv` actually returns. -/
theorem wb_tsv_warmup_cex :
    (tsvSeries [1, 2, 3, 4] [1, 1, 1, 1] 2 1)[1]? = Option.some EV.nan
    ∧ wb_tsv [1, 2, 3, 4] [1, 1, 1, 1] (PyParam.int 2) (PyParam.int 2) PyParam.none
        Option.none Option.none Option.none Option.none =
      .ok { tsv := tsvSeries [1, 2, 3, 4] [1, 1, 1, 1] 2 1
            signal := signalSeries "sma" [1, 2, 3, 4] [1, 1, 1, 1] 2 2 1
            ratio := ratioSeries "sma" [1, 2, 3, 4] [1, 1, 1, 1] 2 2 1
            tsvName := "TSV_2_2", signalName := "TSVs_2_2",
            ratioName := "TSVr_2_2", category := "volume" } := by
  constructor
  · norm_num [tsvSeries, rollingSum, cvdSeries, absCorrect, signedVolume, signedSeries,
      diffSeries, buildSeries, windowAt, evSum, evMul, evAdd, evLt0, evNeg, getEV, getQ,
      List.range_succ, EV.isNum]
  · rfl

/-- **C4** (amended).  With offset 0 and no fill options, for non-null
equal-length inputs the returned `tsv` column is exactly the rolling sum
series, whose cell at `i` is null precisely when `i + 1 < length + drift`
and numeric precisely when `length + drift ≤ i + 1` — i.e. the null
warm-up prefix has length `length - 1 + drift`, not `length - 1`. -/
theorem wb_tsv_warmup (close volume : List ℚ) (l s mamode : PyParam)
    (drift offset : Option ℤ) (L S : ℤ) (i : ℕ)
    (hlen : close.length = volume.length)
    (hL : lengthNorm l = .ok L) (hL1 : 1 ≤ L) (hS : signalNorm s = .ok S)
    (hoff : get_offset offset = 0) (hi : i < volume.length) :
    wb_tsv close volume l s mamode drift offset Option.none Option.none =
      .ok { tsv := tsvSeries close volume L.toNat (get_drift drift).toNat
            signal := signalSeries (mamodeNorm mamode) close volume L.toNat S.toNat
              (get_drift drift).toNat
            ratio := ratioSeries (mamodeNorm mamode) close volume L.toNat S.toNat
              (get_drift drift).toNat
            tsvName := "TSV_" ++ toString L ++ "_" ++ toString S
            signalName := "TSVs_" ++ toString L ++ "_" ++ toString S
            ratioName := "TSVr_" ++ toString L ++ "_" ++ toString S
            category := "volume" }
    ∧ (getEV (tsvSeries close volume L.toNat (get_drift drift).toNat) i = EV.nan
        ↔ i + 1 < L.toNat + (get_drift drift).toNat)
    ∧ (EV.isNum (getEV (tsvSeries close volume L.toNat (get_drift drift).toNat) i) = true
        ↔ L.toNat + (get_drift drift).toNat ≤ i + 1) := by
  refine ⟨?_, ?_, ?_⟩
  · exact wb_tsv_eq_ok close volume l s mamode drift offset Option.none Option.none
      L S hL hS hoff
  · exact (tsv_warmup_core close volume L.toNat (get_drift drift).toNat (by omega)
      hlen i hi).1
  · exact (tsv_warmup_core close volume L.toNat (get_drift drift).toNat (by omega)
      hlen i hi).2

theorem wb_tsv_warmup_witness :
    getEV (tsvSeries [1, 2, 3, 4] [1, 1, 1, 1] (Int.toNat 2)
      (Int.toNat (get_drift Option.none))) 1 = EV.nan :=
  ((wb_tsv_warmup [1, 2, 3, 4] [1, 1, 1, 1] (PyParam.int 2) (PyParam.int 2)
    PyParam.none Option.none Option.none 2 2 1 rfl rfl (by decide) rfl rfl
    (by decide)).2.1).mpr (by decide)

/-- **C8** (confirmed).  `ratio = tsv / signal_` elementwise: wherever both
cells are numeric and the denominator is nonzero the ratio cell is exactly
the quotient; a null or zero denominator produces a null or infinite cell
by the division semantics, never a raised failure. -/
theorem wb_tsv_ratio_division (md : String) (close volume : List ℚ)
    (len sg d i : ℕ) (t : ℚ)
    (h1 : (tsvSeries close volume len d)[i]? = Option.some (EV.num t)) :
    (∀ s : ℚ, (signalSeries md close volume len sg d)[i]? = Option.some (EV.num s) →
        s ≠ 0 →
        (ratioSeries md close volume len sg d)[i]? = Option.some (EV.num (t / s)))
    ∧ (∀ e : EV, (signalSeries md close volume len sg d)[i]? = Option.some e →
        (e = EV.nan ∨ e = EV.num 0) →
        ∃ r, (ratioSeries md close volume len sg d)[i]? = Option.some r
          ∧ r.isNanOrInf = true) := by
  have hlt : i < (tsvSeries close volume len d).length := by
    by_contra hcon
    rw [List.getElem?_eq_none (Nat.le_of_not_lt hcon)] at h1
    exact absurd h1 (by simp)
  have htsv : getEV (tsvSeries close volume len d) i = EV.num t := by
    unfold getEV
    rw [h1]
    rfl
  have hratio : (ratioSeries md close volume len sg d)[i]? =
      Option.some (evDiv (getEV (tsvSeries close volume len d) i)
        (getEV (signalSeries md close volume len sg d) i)) := by
    unfold ratioSeries seriesDiv
    rw [buildSeries_getElem?, if_pos hlt]
  constructor
  · intro s h2 hs
    have hsig : getEV (signalSeries md close volume len sg d) i = EV.num s := by
      unfold getEV
      rw [h2]
      rfl
    rw [hratio, htsv, hsig]
    simp only [evDiv]
    rw [if_neg hs]
  · intro e h2 hcase
    have hsig : getEV (signalSeries md close volume len sg d) i = e := by
      unfold getEV
      rw [h2]
      rfl
    rcases hcase with hnan | hzero
    · refine ⟨EV.nan, ?_, rfl⟩
      rw [hratio, htsv, hsig, hnan]
      rfl
    · refine ⟨evDiv (EV.num t) (EV.num 0), ?_, ?_⟩
      · rw [hratio, htsv, hsig, hzero]
      · simp only [evDiv]
        rw [if_pos trivial]
        by_cases ht : t = 0
        · rw [if_pos ht]
          rfl
        · rw [if_neg ht]
          rfl

theorem wb_tsv_ratio_division_witness :
    (ratioSeries "sma" [1, 2] [1, 1] 1 1 1)[1]? =
      Option.some (EV.num ((1 : ℚ) / 1)) := by
  have h1 : (tsvSeries [1, 2] [1, 1] 1 1)[1]? = Option.some (EV.num 1) := by
    norm_num [tsvSeries, rollingSum, cvdSeries, absCorrect, signedVolume, signedSeries,
      diffSeries, buildSeries, windowAt, evSum, evMul, evAdd, evLt0, evNeg, getEV, getQ,
      List.range_succ, EV.isNum]
  have h2 : (signalSeries "sma" [1, 2] [1, 1] 1 1 1)[1]? = Option.some (EV.num 1) := by
    norm_num [signalSeries, ma, rollingMean, tsvSeries, rollingSum, cvdSeries, absCorrect,
      signedVolume, signedSeries, diffSeries, buildSeries, windowAt, evSum, evMul, evAdd,
      evDiv, evLt0, evNeg, getEV, getQ, List.range_succ, EV.isNum]
  exact (wb_tsv_ratio_division "sma" [1, 2] [1, 1] 1 1 1 1 1 h1).1 1 h2 one_ne_zero

/-- **C9** (confirmed).  A call with a `fillna` value equals the plain call
with every null cell of each of the three outputs replaced by exactly that
literal; the replacement leaves no null cell and touches nothing else. -/
theorem wb_tsv_fillna_law (close volume : List ℚ) (l s mamode : PyParam)
    (drift offset : Option ℤ) (v : ℚ) (fm : Option String) :
    wb_tsv close volume l s mamode drift offset (Option.some v) fm =
      Except.map
        (fun r0 =>
          { r0 with
            tsv := fillnaVal v r0.tsv
            signal := fillnaVal v r0.signal
            ratio := fillnaVal v r0.ratio })
        (wb_tsv close volume l s mamode drift offset Option.none Option.none)
    ∧ (∀ xs : List EV, (fillnaVal v xs).all (fun e => decide (e ≠ EV.nan)) = true)
    ∧ (∀ xs : List EV, ∀ i : ℕ, (fillnaVal v xs)[i]? =
        (xs[i]?).map (fun e => if e = EV.nan then EV.num v else e)) := by
  refine ⟨?_, fun xs => fillnaVal_all_ne_nan v xs, fun xs i => fillnaVal_getElem? v xs i⟩
  cases hL : lengthNorm l with
  | error e =>
    rw [wb_tsv_eq_errorL close volume l s mamode drift offset (Option.some v) fm e hL,
      wb_tsv_eq_errorL close volume l s mamode drift offset Option.none Option.none e hL]
    rfl
  | ok L =>
    cases hS : signalNorm s with
    | error e =>
      rw [wb_tsv_eq_errorS close volume l s mamode drift offset (Option.some v) fm L e
          hL hS,
        wb_tsv_eq_errorS close volume l s mamode drift offset Option.none Option.none L e
          hL hS]
      rfl
    | ok S =>
      by_cases hoff : get_offset offset = 0
      · rw [wb_tsv_eq_ok close volume l s mamode drift offset (Option.some v) fm L S
            hL hS hoff,
          wb_tsv_eq_ok close volume l s mamode drift offset Option.none Option.none L S
            hL hS hoff]
        simp only [fillPass_some_eq]
        rfl
      · rw [wb_tsv_eq_error close volume l s mamode drift offset (Option.some v) fm L S
            hL hS hoff,
          wb_tsv_eq_error close volume l s mamode drift offset Option.none Option.none L S
            hL hS hoff]
        rfl

/-- **C10** (confirmed).  When both `fillna` and `fill_method` are
supplied, the value pass runs first and leaves no nulls, so the method
pass changes nothing: the call is identical to supplying `fillna`
alone. -/
theorem wb_tsv_fill_method_noop_after_fillna (close volume : List ℚ)
    (l s mamode : PyParam) (drift offset : Option ℤ) (v : ℚ) (m : String) :
    wb_tsv close volume l s mamode drift offset (Option.some v) (Option.some m) =
      wb_tsv close volume l s mamode drift offset (Option.some v) Option.none := by
  cases hL : lengthNorm l with
  | error e =>
    rw [wb_tsv_eq_errorL close volume l s mamode drift offset (Option.some v)
        (Option.some m) e hL,
      wb_tsv_eq_errorL close volume l s mamode drift offset (Option.some v) Option.none
        e hL]
  | ok L =>
    cases hS : signalNorm s with
    | error e =>
      rw [wb_tsv_eq_errorS close volume l s mamode drift offset (Option.some v)
          (Option.some m) L e hL hS,
        wb_tsv_eq_errorS close volume l s mamode drift offset (Option.some v) Option.none
          L e hL hS]
    | ok S =>
      by_cases hoff : get_offset offset = 0
      · rw [wb_tsv_eq_ok close volume l s mamode drift offset (Option.some v)
            (Option.some m) L S hL hS hoff,
          wb_tsv_eq_ok close volume l s mamode drift offset (Option.some v) Option.none
            L S hL hS hoff]
        simp only [fillPass_some_eq]
      · rw [wb_tsv_eq_error close volume l s mamode drift offset (Option.some v)
            (Option.some m) L S hL hS hoff,
          wb_tsv_eq_error close volume l s mamode drift offset (Option.some v) Option.none
            L S hL hS hoff]
